import Mathlib

/-!
Verification development for the anonymous polling subsystem of the
Swiftly Discord bot (`src/commands/poll.py`).

The relational store (MySQL tables `polls`, `votes`, `vote_checks`,
`encryption_keys`) is embedded as lists of row structures, and every SQL
statement or transaction of the source becomes a pure state transition on
`DBState`.  Time is measured in seconds (`Nat`).  The Fernet ciphertext
`encrypted_user_id` is modelled by the voter id itself (Fernet encryption
is keyed and reversible, so rows are in bijection with voter ids); the
SHA-256 hex digest of `"{poll_id}:{user_id}"` is modelled as the hex-digit
string of the injective pairing `Nat.pair poll_id user_id` — like a real
hex digest it consists of hex digits only (no `:` and no `poll_` prefix),
and equal inputs give equal digests (collision freedom assumed).
-/

/-- `VOTE_RATE_LIMIT_SECONDS = 2` from poll.py. -/
def VOTE_RATE_LIMIT_SECONDS : Nat := 2

/-- `CLEANUP_DAYS = 1` from poll.py. -/
def CLEANUP_DAYS : Nat := 1

/-- `MAX_OPTIONS = 5` from poll.py. -/
def MAX_OPTIONS : Nat := 5

/-- A row of the `polls` table (`Poll.init_db`). -/
structure PollRow where
  id : Nat
  title : String
  description : String
  creatorId : Nat
  endTime : Nat
  isActive : Bool
  options : String
  channelId : Option Nat
  messageId : Option Nat
  totalVotes : Nat
deriving DecidableEq

/-- A row of the `votes` table: `(poll_id, encrypted_user_id, choice)`;
the ciphertext column is modelled by the voter id (see module header). -/
structure VoteRow where
  pollId : Nat
  encryptedUserId : Nat
  choice : Nat
deriving DecidableEq

/-- A row of the `encryption_keys` table: `(id AUTO_INCREMENT PK, key_value)`. -/
structure KeyRow where
  id : Nat
  keyValue : Nat
deriving DecidableEq

/-- The whole relational store. -/
structure DBState where
  polls : List PollRow
  votes : List VoteRow
  voteChecks : List String
  keys : List KeyRow
deriving DecidableEq

def emptyDB : DBState := ⟨[], [], [], []⟩

/-- `get_vote_hash(poll_id, user_id)`: SHA-256 hex digest of
`"{poll_id}:{user_id}"`, modelled as the hex digits of the injective
pairing of the two ids (see module header). -/
def voteHash (pollId userId : Nat) : String :=
  String.mk (Nat.toDigits 16 (Nat.pair pollId userId))

/-- `SELECT ... FROM polls WHERE id = %s` (first matching row). -/
def getPoll (db : DBState) (pollId : Nat) : Option PollRow :=
  db.polls.find? (fun p => p.id == pollId)

/-- `SELECT COUNT(*) FROM votes WHERE poll_id = %s`. -/
def countVotes (db : DBState) (pollId : Nat) : Nat :=
  (db.votes.filter (fun v => v.pollId == pollId)).length

/-- `UPDATE polls SET total_votes = %s WHERE id = %s`. -/
def setTotal (polls : List PollRow) (pollId total : Nat) : List PollRow :=
  polls.map (fun p => if p.id == pollId then { p with totalVotes := total } else p)

/-- Outcome of the voting transaction in `PollButton.callback`. -/
inductive VoteOutcome where
  | ended
  | duplicate
  | accepted (totalVotes : Nat)
deriving DecidableEq

/-- The database transaction of `PollButton.callback` (poll.py lines
146–199): check `is_active`; check the commitment hash in `vote_checks`;
insert the vote row and the commitment; recompute `total_votes` from the
`votes` table; commit.  Every early exit rolls back, leaving the store
unchanged. -/
def castVote (db : DBState) (pollId optionId userId : Nat) :
    VoteOutcome × DBState :=
  match getPoll db pollId with
  | none => (.ended, db)
  | some poll =>
    if !poll.isActive then (.ended, db)
    else
      let h := voteHash pollId userId
      if db.voteChecks.contains h then (.duplicate, db)
      else
        let votes' := db.votes ++ [⟨pollId, userId, optionId⟩]
        let checks' := db.voteChecks ++ [h]
        let total := (votes'.filter (fun v => v.pollId == pollId)).length
        (.accepted total,
          { db with votes := votes', voteChecks := checks',
                    polls := setTotal db.polls pollId total })

/-- The store state after an accepted vote (the value `castVote` commits). -/
def dbAfterVote (db : DBState) (pollId optionId userId : Nat) : DBState :=
  { db with votes := db.votes ++ [⟨pollId, userId, optionId⟩],
            voteChecks := db.voteChecks ++ [voteHash pollId userId],
            polls := setTotal db.polls pollId (countVotes db pollId + 1) }

/-- Number of `votes` rows belonging to `(pollId, userId)`. -/
def pairVoteCount (db : DBState) (pollId userId : Nat) : Nat :=
  (db.votes.filter
    (fun v => v.pollId == pollId && v.encryptedUserId == userId)).length

/-- Number of `vote_checks` rows holding a given hash. -/
def checkCount (db : DBState) (h : String) : Nat :=
  (db.voteChecks.filter (fun x => x == h)).length

/-- Helper for `splitComma`: Python `str.split(",")` over the characters. -/
def splitCommaAux : List Char → List Char → List String
  | [], acc => [String.mk acc.reverse]
  | c :: rest, acc =>
    if c = ',' then String.mk acc.reverse :: splitCommaAux rest []
    else splitCommaAux rest (c :: acc)

/-- Python `s.split(",")` (always at least one entry; `""` gives `[""]`). -/
def splitComma (s : String) : List String :=
  splitCommaAux s.data []

/-- ASCII whitespace, as stripped by Python `str.strip()`. -/
def isSpaceChar (c : Char) : Bool :=
  c = ' ' || c = '\t' || c = '\n' || c = '\r'

/-- Python `s.strip()`. -/
def trimChars (s : String) : String :=
  String.mk ((s.data.dropWhile isSpaceChar).reverse.dropWhile isSpaceChar).reverse

/-- `[opt.strip() for opt in options.split(",")]` from `Poll.poll`. -/
def parseOptions (options : String) : List String :=
  (splitComma options).map trimChars

/-- The `duration` choices offered by the slash command (`DURATION_CHOICES`),
as (label, minutes) pairs. -/
def durationChoices : List (String × Nat) :=
  [("30分", 30), ("1時間", 60), ("12時間", 720),
   ("1日", 1440), ("3日", 4320), ("1週間", 10080)]

/-- AUTO_INCREMENT id for a new `polls` row. -/
def nextPollId (db : DBState) : Nat :=
  (db.polls.map (fun p => p.id)).foldr max 0 + 1

/-- Outcome of the `create` action of the `/poll` command. -/
inductive CreateOutcome where
  | missingFields
  | tooFewOptions
  | tooManyOptions
  | created (pollId : Nat)
deriving DecidableEq

/-- The `create` action of `Poll.poll` (poll.py lines 507–540): Python's
`not all([title, options])` treats both `None` and the empty string as
missing; the split-and-stripped option list must have between 2 and
`MAX_OPTIONS` entries (emptiness of an entry is not checked); on success a
new `polls` row is inserted holding the raw options string, `is_active=1`,
`total_votes=0` and `end_time = now + duration minutes` (default 1440). -/
def createPoll (db : DBState) (title? descr? : Option String)
    (duration? : Option Nat) (options? : Option String)
    (creatorId channelId now : Nat) : CreateOutcome × DBState :=
  match title?, options? with
  | some title, some options =>
    if title == "" || options == "" then (.missingFields, db)
    else
      let optionList := parseOptions options
      if optionList.length < 2 then (.tooFewOptions, db)
      else if optionList.length > MAX_OPTIONS then (.tooManyOptions, db)
      else
        let pid := nextPollId db
        (.created pid,
          { db with polls := db.polls ++
              [⟨pid, title, descr?.getD "", creatorId,
                now + (duration?.getD 1440) * 60, true, options,
                some channelId, none, 0⟩] })
  | _, _ => (.missingFields, db)

/-- A `PollButton` object: label, option index, poll id, and its own
`_last_uses` dict (user id ↦ time of the last accepted press). -/
structure PollButton where
  label : String
  optionId : Nat
  pollId : Nat
  lastUses : List (Nat × Nat)
deriving DecidableEq

/-- `PollView.__init__`: one fresh button per option, in order. -/
def pollView (options : List String) (pollId : Nat) : List PollButton :=
  options.enum.map (fun x => ⟨x.2, x.1, pollId, []⟩)

/-- `PollButton._check_rate_limit` over the button's `_last_uses` dict. -/
def checkRateLimit (lastUses : List (Nat × Nat)) (userId now : Nat) :
    Bool × Option Nat :=
  match lastUses.find? (fun e => e.1 == userId) with
  | some e =>
    if now - e.2 < VOTE_RATE_LIMIT_SECONDS then
      (true, some (VOTE_RATE_LIMIT_SECONDS - (now - e.2)))
    else (false, none)
  | none => (false, none)

/-- `self._last_uses[user_id] = now` (dict assignment). -/
def setLastUse (lastUses : List (Nat × Nat)) (userId now : Nat) :
    List (Nat × Nat) :=
  (userId, now) :: lastUses.filter (fun e => !(e.1 == userId))

/-- User-visible outcome of a button press (`PollButton.callback`). -/
inductive PressOutcome where
  | rateLimited (remaining : Nat)
  | ended
  | duplicate
  | accepted (totalVotes : Nat)
deriving DecidableEq

/-- `PollButton.callback`: rate-limit gate, then the voting transaction;
`self._last_uses` is updated (line 207) only after the transaction
committed, i.e. only on the accepted outcome. -/
def pressButton (b : PollButton) (db : DBState) (userId now : Nat) :
    PressOutcome × PollButton × DBState :=
  match checkRateLimit b.lastUses userId now with
  | (true, some r) => (.rateLimited r, b, db)
  | _ =>
    match castVote db b.pollId b.optionId userId with
    | (.ended, db1) => (.ended, b, db1)
    | (.duplicate, db1) => (.duplicate, b, db1)
    | (.accepted t, db1) =>
      (.accepted t, { b with lastUses := setLastUse b.lastUses userId now }, db1)

/-- A non-negative IEEE binary64 value `m · 2^e`.  CPython evaluates the
renderer's arithmetic in binary64 with correctly rounded operations
(round to nearest, ties to even); every value these formulas reach is
non-negative and far inside the normal range, so doubles are modelled
exactly as dyadic rationals with a 53-bit significand. -/
structure F64 where
  m : Nat
  e : Int
deriving DecidableEq

/-- Scale `(n / d) · 2^e` (value preserved) until `2^52 ≤ n / d < 2^53`;
the fuel covers the whole binary64 exponent range. -/
def rneScale : Nat → Nat → Nat → Int → Nat × Nat × Int
  | 0, n, d, e => (n, d, e)
  | fuel + 1, n, d, e =>
    if n < 4503599627370496 * d then rneScale fuel (2 * n) d (e - 1)
    else if 9007199254740992 * d ≤ n then rneScale fuel n (2 * d) (e + 1)
    else (n, d, e)

/-- Round the positive rational `(n / d) · 2^e` to the nearest binary64,
ties to even — the IEEE rounding every CPython float operation applies. -/
def rnePos (n d : Nat) (e : Int) : F64 :=
  match rneScale 4400 n d e with
  | (n2, d2, e2) =>
    let q := n2 / d2
    let r := n2 % d2
    if 2 * r < d2 then ⟨q, e2⟩
    else if d2 < 2 * r then ⟨q + 1, e2⟩
    else if q % 2 = 0 then ⟨q, e2⟩ else ⟨q + 1, e2⟩

/-- The double a Python int converts to (exact below `2^53`). -/
def f64OfNat (n : Nat) : F64 :=
  if n = 0 then ⟨0, 0⟩ else rnePos n 1 0

/-- Correctly rounded binary64 division, non-negative operands (a zero
divisor is unreachable behind the source's `total_votes > 0` and
`max_votes > 0` guards). -/
def fdiv (a b : F64) : F64 :=
  if a.m = 0 || b.m = 0 then ⟨0, 0⟩ else rnePos a.m b.m (a.e - b.e)

/-- Correctly rounded binary64 multiplication, non-negative operands. -/
def fmul (a b : F64) : F64 :=
  if a.m = 0 || b.m = 0 then ⟨0, 0⟩ else rnePos (a.m * b.m) 1 (a.e + b.e)

/-- Python `int()` on a non-negative double: truncation = floor. -/
def f64Trunc (a : F64) : Nat :=
  if 0 ≤ a.e then a.m * 2 ^ a.e.toNat else a.m / 2 ^ (-a.e).toNat

/-- `percentage = (votes / total_votes * 100) if total_votes > 0 else 0`,
evaluated in binary64 exactly as CPython does (int / int is a correctly
rounded double, then one rounded multiplication). -/
def percentage (votes total : Nat) : F64 :=
  if 0 < total then fmul (fdiv (f64OfNat votes) (f64OfNat total)) (f64OfNat 100)
  else ⟨0, 0⟩

/-- `int(percentage / 5 * total_votes / max_votes) if max_votes > 0 else 0`
from `Poll.check_ended_polls` (line 440), evaluated left-to-right in
binary64; the operand of `int()` is non-negative, so truncation = floor. -/
def barLengthAuto (votes total maxV : Nat) : Nat :=
  if 0 < maxV then
    f64Trunc (fdiv (fmul (fdiv (percentage votes total) (f64OfNat 5))
      (f64OfNat total)) (f64OfNat maxV))
  else 0

/-- The same bar-length formula as written in `select_callback`
(lines 682–683), in binary64. -/
def barLengthManual (votes total maxV : Nat) : Nat :=
  if 0 < maxV then
    f64Trunc (fdiv (fmul (fdiv (percentage votes total) (f64OfNat 5))
      (f64OfNat total)) (f64OfNat maxV))
  else 0

def barChar : Char := '█'

def restChar : Char := '▁'

/-- `"█" * bar_length + "▁" * (20 - bar_length)`. -/
def progressBar (len : Nat) : String :=
  String.mk (List.replicate len barChar) ++
    String.mk (List.replicate (20 - len) restChar)

/-- The integer nearest `10 ×` the double's exact value, ties to even. -/
def roundTenEven (f : F64) : Nat :=
  if 0 ≤ f.e then 10 * f.m * 2 ^ f.e.toNat
  else
    let k := 2 ^ (-f.e).toNat
    let q := 10 * f.m / k
    let r := 10 * f.m % k
    if 2 * r < k then q
    else if k < 2 * r then q + 1
    else if q % 2 = 0 then q else q + 1

/-- Python `f"{x:.1f}"` on a non-negative double: CPython rounds the
EXACT binary value to one decimal, ties to even. -/
def fmtTenths (f : F64) : String :=
  toString (roundTenEven f / 10) ++ "." ++ toString (roundTenEven f % 10)

/-- `f"{progress_bar} {votes}票 ({percentage:.1f}%)"` with the auto-path
bar length. -/
def resultLineAuto (votes total maxV : Nat) : String :=
  progressBar (barLengthAuto votes total maxV) ++ " " ++ toString votes ++
    "票 (" ++ fmtTenths (percentage votes total) ++ "%)"

/-- The same field line as rendered by the manual end path. -/
def resultLineManual (votes total maxV : Nat) : String :=
  progressBar (barLengthManual votes total maxV) ++ " " ++ toString votes ++
    "票 (" ++ fmtTenths (percentage votes total) ++ "%)"

/-- The result block of `check_ended_polls` (lines 436–448): for each
option in original order, the embed field (name, line); `total` sums the
tally, `maxV` is `max(vote_counts.values())`. -/
def renderResultsAuto (options : List String) (counts : List Nat) :
    List (String × String) :=
  options.enum.map
    (fun x => (x.2, resultLineAuto (counts.getD x.1 0) counts.sum (counts.foldr max 0)))

/-- The result block of `select_callback` (lines 678–691), same loop. -/
def renderResultsManual (options : List String) (counts : List Nat) :
    List (String × String) :=
  options.enum.map
    (fun x => (x.2, resultLineManual (counts.getD x.1 0) counts.sum (counts.foldr max 0)))

/-- `SELECT choice, COUNT(*) FROM votes WHERE poll_id = %s GROUP BY choice`
merged into `vote_counts = {i: 0 for i in range(len(options))}`: the
per-option tally (the poll's buttons only produce in-range choices). -/
def voteCountsOf (db : DBState) (pollId numOptions : Nat) : List Nat :=
  (List.range numOptions).map
    (fun i => (db.votes.filter (fun v => v.pollId == pollId && v.choice == i)).length)

/-- A posted result announcement (the embed sent to the channel). -/
structure Announcement where
  pollId : Nat
  title : String
  auto : Bool
  lines : List (String × String)
  totalVotes : Nat
deriving DecidableEq

/-- `is_active = 1 AND end_time < now`, the expiry-sweep condition. -/
def expiredQ (p : PollRow) (now : Nat) : Bool :=
  p.isActive && decide (p.endTime < now)

/-- The result embed built for a poll (auto or manual copy). -/
def mkAnnouncement (db : DBState) (p : PollRow) (auto : Bool) : Announcement :=
  let opts := splitComma p.options
  let counts := voteCountsOf db p.id opts.length
  ⟨p.id, p.title, auto,
    if auto then renderResultsAuto opts counts else renderResultsManual opts counts,
    counts.sum⟩

/-- One iteration of `Poll.check_ended_polls` (lines 391–472): every
active poll past its `end_time` is set `is_active = 0` and announced; the
rows are NOT deleted. -/
def checkEndedStep (db : DBState) (now : Nat) : List Announcement × DBState :=
  ((db.polls.filter (fun p => expiredQ p now)).map
      (fun p => mkAnnouncement db p true),
   { db with polls := db.polls.map
                (fun p => if expiredQ p now then { p with isActive := false } else p) })

/-- Outcome of the manual end selection (`select_callback`). -/
inductive EndOutcome where
  | notFound
  | endedAndDeleted (ann : Announcement)
deriving DecidableEq

/-- SQL `col LIKE '%pat%'` (substring containment). -/
def likeContains (pat s : List Char) : Bool :=
  (List.range (s.length + 1)).any (fun i => ((s.drop i).take pat.length) == pat)

/-- SQL `col LIKE 'pat%'` (prefix match). -/
def likePre (pat s : List Char) : Bool :=
  s.take pat.length == pat

/-- `select_callback` (poll.py lines 605–695): fetches the poll row by id
(with NO `is_active` filter), aggregates the tally, then in one
transaction deletes the poll's `votes` rows, the `polls` row, and the
`vote_checks` rows matching `LIKE '%{poll_id}:%'`, and announces the
result; a missing row reports not-found and changes nothing. -/
def manualEnd (db : DBState) (pollId : Nat) : EndOutcome × DBState :=
  match getPoll db pollId with
  | none => (.notFound, db)
  | some poll =>
    (.endedAndDeleted (mkAnnouncement db poll false),
      { db with
          votes := db.votes.filter (fun v => !(v.pollId == pollId)),
          polls := db.polls.filter (fun p => !(p.id == pollId)),
          voteChecks := db.voteChecks.filter
            (fun h => !(likeContains (toString pollId ++ ":").data h.data)) })

/-- Does some `polls` row with this id satisfy
`is_active = 0 AND end_time < cleanup_time`? -/
def oldInactive (db : DBState) (pollId cleanupTime : Nat) : Bool :=
  db.polls.any
    (fun p => p.id == pollId && !p.isActive && decide (p.endTime < cleanupTime))

/-- First statement of `Poll.cleanup_old_polls` (autocommitted on its
own): `DELETE FROM votes WHERE poll_id IN (SELECT id FROM polls WHERE
is_active = 0 AND end_time < cleanup_time)`. -/
def cleanupVotesStep (db : DBState) (cleanupTime : Nat) : DBState :=
  { db with votes := db.votes.filter
               (fun v => !(oldInactive db v.pollId cleanupTime)) }

/-- Second statement: `DELETE FROM vote_checks WHERE vote_hash LIKE
'poll_{now_ts - CLEANUP_DAYS*86400}%'`. -/
def cleanupChecksStep (db : DBState) (now : Nat) : DBState :=
  { db with voteChecks := db.voteChecks.filter
                (fun h => !(likePre ("poll_" ++ toString (now - CLEANUP_DAYS * 86400)).data h.data)) }

/-- Third statement: `DELETE FROM polls WHERE is_active = 0 AND end_time <
cleanup_time`; `votes.poll_id` has `ON DELETE CASCADE`. -/
def cleanupPollsStep (db : DBState) (cleanupTime : Nat) : DBState :=
  { db with
      polls := db.polls.filter
        (fun p => !(!p.isActive && decide (p.endTime < cleanupTime))),
      votes := db.votes.filter
        (fun v => (db.polls.filter
          (fun p => !(!p.isActive && decide (p.endTime < cleanupTime)))).any
            (fun p => p.id == v.pollId)) }

/-- One full iteration of `cleanup_old_polls` (lines 358–389), with
`cleanup_time = now - CLEANUP_DAYS` expressed in seconds. -/
def cleanupIteration (db : DBState) (now : Nat) : DBState :=
  cleanupPollsStep
    (cleanupChecksStep (cleanupVotesStep db (now - CLEANUP_DAYS * 86400)) now)
    (now - CLEANUP_DAYS * 86400)

/-- AUTO_INCREMENT id for a new `encryption_keys` row. -/
def nextKeyId (db : DBState) : Nat :=
  (db.keys.map (fun k => k.id)).foldr max 0 + 1

/-- `SELECT key_value FROM encryption_keys LIMIT 1`. -/
def keyLookup (db : DBState) : Option Nat :=
  db.keys.head?.map (fun k => k.keyValue)

/-- `INSERT INTO encryption_keys (key_value) VALUES (%s)`: the primary key
is the AUTO_INCREMENT `id`, so the insert always succeeds with a fresh id
(`key_value` carries no unique constraint). -/
def keyInsert (db : DBState) (k : Nat) : DBState :=
  { db with keys := db.keys ++ [⟨nextKeyId db, k⟩] }

/-- `get_or_create_key` (poll.py lines 48–75): return the stored key if
one exists, otherwise generate (`freshKey`) and insert it. -/
def getOrCreateKey (db : DBState) (freshKey : Nat) : Nat × DBState :=
  match keyLookup db with
  | some k => (k, db)
  | none => (freshKey, keyInsert db freshKey)

/-- The concurrent first-use race: both tasks run the SELECT of
`get_or_create_key` on `db` (both see its head), then both run their
INSERT, interleaved after both reads. -/
def raceFirstUse (db : DBState) (k1 k2 : Nat) : DBState :=
  keyInsert (keyInsert db k1) k2

/-- The spec's `total_votes` invariant, per committed state. -/
def totalVotesInvB (db : DBState) : Bool :=
  db.polls.all (fun p => p.totalVotes == countVotes db p.id)

/-- Referential integrity of `votes.poll_id REFERENCES polls(id)`. -/
def fkOK (db : DBState) : Bool :=
  db.votes.all (fun v => db.polls.any (fun p => p.id == v.pollId))

theorem find?_setTotal (polls : List PollRow) (pid total q : Nat) :
    (setTotal polls pid total).find? (fun p => p.id == q)
      = (polls.find? (fun p => p.id == q)).map
          (fun p => if p.id == pid then { p with totalVotes := total } else p) := by
  induction polls with
  | nil => rfl
  | cons hd tl ih =>
    have hid : (if hd.id == pid then { hd with totalVotes := total } else hd).id
        = hd.id := by
      by_cases h : hd.id = pid <;> simp [h]
    by_cases h2 : hd.id = q
    · have hb : (hd.id == q) = true := by simp [h2]
      simp only [setTotal, List.map_cons, List.find?_cons, hid, hb]
      rfl
    · have hb : (hd.id == q) = false := by simp [h2]
      simp only [setTotal, List.map_cons, List.find?_cons, hid, hb]
      simpa only [setTotal] using ih

theorem castVote_accepted_eq (db : DBState) (p c u : Nat) (poll : PollRow)
    (hp : getPoll db p = some poll) (hact : poll.isActive = true)
    (hc : db.voteChecks.contains (voteHash p u) = false) :
    castVote db p c u = (.accepted (countVotes db p + 1), dbAfterVote db p c u) := by
  simp only [castVote, hp, hact, Bool.not_true, Bool.false_eq_true, if_false, hc]
  simp [dbAfterVote, countVotes, List.filter_append]

theorem castVote_duplicate_eq (db : DBState) (p c u : Nat) (poll : PollRow)
    (hp : getPoll db p = some poll) (hact : poll.isActive = true)
    (hc : db.voteChecks.contains (voteHash p u) = true) :
    castVote db p c u = (.duplicate, db) := by
  simp only [castVote, hp, hact, Bool.not_true, Bool.false_eq_true, if_false, hc]
  simp

theorem getPoll_dbAfterVote (db : DBState) (p c u q : Nat) :
    getPoll (dbAfterVote db p c u) q
      = (getPoll db q).map
          (fun r => if r.id == p
            then { r with totalVotes := countVotes db p + 1 } else r) := by
  simp only [getPoll, dbAfterVote]
  exact find?_setTotal db.polls p (countVotes db p + 1) q

/-- C1: a first vote on an active poll with no prior commitment is
accepted and creates exactly one `votes` row and one `vote_checks` row for
the pair; an immediately repeated vote by the same voter (any choice)
returns the duplicate outcome and leaves the store untouched. -/
theorem castVote_twice_unique (db : DBState) (p u c c' : Nat) (poll : PollRow)
    (hp : getPoll db p = some poll) (hact : poll.isActive = true)
    (hv : pairVoteCount db p u = 0)
    (hk : checkCount db (voteHash p u) = 0) :
    ∃ t,
      (castVote db p c u).1 = .accepted t ∧
      pairVoteCount (castVote db p c u).2 p u = 1 ∧
      checkCount (castVote db p c u).2 (voteHash p u) = 1 ∧
      (castVote (castVote db p c u).2 p c' u).1 = .duplicate ∧
      (castVote (castVote db p c u).2 p c' u).2 = (castVote db p c u).2 := by
  have hnotmem : voteHash p u ∉ db.voteChecks := by
    intro hmem
    have hmemf : voteHash p u ∈ db.voteChecks.filter (fun x => x == voteHash p u) :=
      List.mem_filter.mpr ⟨hmem, by simp⟩
    have hpos : 0 < checkCount db (voteHash p u) := by
      simpa [checkCount] using List.length_pos_of_mem hmemf
    omega
  have hcontains : db.voteChecks.contains (voteHash p u) = false := by
    simpa using hnotmem
  have hfirst := castVote_accepted_eq db p c u poll hp hact hcontains
  have hpid : poll.id = p := by
    have := List.find?_some hp
    simpa using this
  have hfind2 : getPoll (dbAfterVote db p c u) p
      = some { poll with totalVotes := countVotes db p + 1 } := by
    rw [getPoll_dbAfterVote, hp]
    simp [hpid]
  have hc2 : (dbAfterVote db p c u).voteChecks.contains (voteHash p u) = true := by
    simp [dbAfterVote]
  have hsecond := castVote_duplicate_eq (dbAfterVote db p c u) p c' u
      { poll with totalVotes := countVotes db p + 1 } hfind2 (by simpa using hact) hc2
  refine ⟨countVotes db p + 1, ?_, ?_, ?_, ?_, ?_⟩
  · rw [hfirst]
  · rw [hfirst]
    simp only [pairVoteCount] at hv ⊢
    simp [dbAfterVote, List.filter_append, hv]
  · rw [hfirst]
    simp only [checkCount] at hk ⊢
    simp [dbAfterVote, List.filter_append, hk]
  · rw [hfirst]
    simpa using congrArg Prod.fst hsecond
  · rw [hfirst]
    simpa using congrArg Prod.snd hsecond

/-- Witness for C1 at a concrete store: one active poll, no votes yet. -/
theorem castVote_twice_unique_witness :
    ∃ t,
      (castVote ⟨[⟨1, "t", "", 9, 100, true, "a,b", some 7, none, 0⟩], [], [], []⟩ 1 0 42).1 = .accepted t ∧
      pairVoteCount (castVote ⟨[⟨1, "t", "", 9, 100, true, "a,b", some 7, none, 0⟩], [], [], []⟩ 1 0 42).2 1 42 = 1 ∧
      checkCount (castVote ⟨[⟨1, "t", "", 9, 100, true, "a,b", some 7, none, 0⟩], [], [], []⟩ 1 0 42).2 (voteHash 1 42) = 1 ∧
      (castVote (castVote ⟨[⟨1, "t", "", 9, 100, true, "a,b", some 7, none, 0⟩], [], [], []⟩ 1 0 42).2 1 1 42).1 = .duplicate ∧
      (castVote (castVote ⟨[⟨1, "t", "", 9, 100, true, "a,b", some 7, none, 0⟩], [], [], []⟩ 1 0 42).2 1 1 42).2 = (castVote ⟨[⟨1, "t", "", 9, 100, true, "a,b", some 7, none, 0⟩], [], [], []⟩ 1 0 42).2 :=
  castVote_twice_unique
    ⟨[⟨1, "t", "", 9, 100, true, "a,b", some 7, none, 0⟩], [], [], []⟩
    1 42 0 1 ⟨1, "t", "", 9, 100, true, "a,b", some 7, none, 0⟩
    rfl rfl rfl rfl

theorem createPoll_created_eq (db : DBState) (title : String)
    (descr? : Option String) (duration? : Option Nat) (options : String)
    (creatorId channelId now : Nat)
    (ht : (title == "") = false) (ho : (options == "") = false)
    (h2 : ¬(parseOptions options).length < 2)
    (h5 : ¬(parseOptions options).length > MAX_OPTIONS) :
    createPoll db (some title) descr? duration? (some options) creatorId channelId now
      = (.created (nextPollId db),
         { db with polls := db.polls ++
             [⟨nextPollId db, title, descr?.getD "", creatorId,
               now + (duration?.getD 1440) * 60, true, options,
               some channelId, none, 0⟩] }) := by
  simp [createPoll, ht, ho, h2, h5]

/-- C6 is false as stated: the input `",,"` splits into three entries,
none of them non-empty, yet the create action inserts a poll row instead
of rejecting. -/
theorem createPoll_empty_entries_accepted :
    (parseOptions (",,")).length = 3 ∧
    ((parseOptions (",,")).filter (fun s => !(s == ""))).length = 0 ∧
    (createPoll emptyDB (some ("t")) none none (some (",,")) 9 7 0).1
      = .created 1 ∧
    (createPoll emptyDB (some ("t")) none none (some (",,")) 9 7 0).2.polls.length
      = 1 :=
  ⟨by decide, by decide, by decide, by decide⟩

/-- C6 (amended): the comma-separated options input is split and trimmed
and must yield between 2 and 5 entries — entries may be empty, emptiness
is not checked; otherwise the create action is rejected with a corrective
outcome before any store write (the store is returned unchanged). -/
theorem createPoll_option_count (db : DBState) (title options : String)
    (descr? : Option String) (duration? : Option Nat)
    (creatorId channelId now : Nat)
    (ht : title ≠ "") (ho : options ≠ "") :
    ((parseOptions options).length < 2 →
      createPoll db (some title) descr? duration? (some options) creatorId channelId now
        = (.tooFewOptions, db)) ∧
    (MAX_OPTIONS < (parseOptions options).length →
      createPoll db (some title) descr? duration? (some options) creatorId channelId now
        = (.tooManyOptions, db)) ∧
    (2 ≤ (parseOptions options).length → (parseOptions options).length ≤ MAX_OPTIONS →
      createPoll db (some title) descr? duration? (some options) creatorId channelId now
        = (.created (nextPollId db),
           { db with polls := db.polls ++
               [⟨nextPollId db, title, descr?.getD "", creatorId,
                 now + (duration?.getD 1440) * 60, true, options,
                 some channelId, none, 0⟩] })) := by
  have ht' : (title == "") = false := by simp [ht]
  have ho' : (options == "") = false := by simp [ho]
  refine ⟨fun h => ?_, fun h => ?_, fun h2 h5 => ?_⟩
  · simp [createPoll, ht', ho', h]
  · have hm : 5 < (parseOptions options).length := by simpa [MAX_OPTIONS] using h
    have hn : ¬(parseOptions options).length < 2 := by omega
    simp [createPoll, ht', ho', hn, h]
  · exact createPoll_created_eq db title descr? duration? options
      creatorId channelId now ht' ho' (by omega) (by omega)

/-- Witness for C6 (amended): one option is rejected, six options are
rejected, two options are accepted — all without touching the store. -/
theorem createPoll_option_count_witness :
    createPoll emptyDB (some ("t")) none none (some ("a")) 9 7 0
      = (.tooFewOptions, emptyDB) ∧
    createPoll emptyDB (some ("t")) none none (some ("a,b,c,d,e,f")) 9 7 0
      = (.tooManyOptions, emptyDB) ∧
    (createPoll emptyDB (some ("t")) none none (some ("a,b")) 9 7 0).1
      = .created 1 := by
  refine ⟨(createPoll_option_count emptyDB ("t") ("a") none none 9 7 0
      (by decide) (by decide)).1 (by decide),
    (createPoll_option_count emptyDB ("t") ("a,b,c,d,e,f") none none 9 7 0
      (by decide) (by decide)).2.1 (by decide), ?_⟩
  have h := (createPoll_option_count emptyDB ("t") ("a,b") none none 9 7 0
      (by decide) (by decide)).2.2 (by decide) (by decide)
  rw [h]
  rfl

/-- C9: with the duration parameter omitted the poll is still created and
gets `end_time = now + 1440 minutes`, while the enumerated duration
choices are exactly 30 min, 1 h, 12 h, 1 day, 3 days, 1 week, with no
default among them. -/
theorem createPoll_default_duration (db : DBState) (title options : String)
    (descr? : Option String) (creatorId channelId now : Nat)
    (ht : title ≠ "") (ho : options ≠ "")
    (h2 : 2 ≤ (parseOptions options).length)
    (h5 : (parseOptions options).length ≤ MAX_OPTIONS) :
    (createPoll db (some title) descr? none (some options) creatorId channelId now).1
      = .created (nextPollId db) ∧
    (∃ row, (createPoll db (some title) descr? none (some options) creatorId channelId now).2.polls
        = db.polls ++ [row] ∧
      row.endTime = now + 1440 * 60 ∧ row.isActive = true) ∧
    durationChoices.map (fun c => c.2) = [30, 60, 720, 1440, 4320, 10080] := by
  have heq := createPoll_created_eq db title descr? none options
    creatorId channelId now (by simp [ht]) (by simp [ho]) (by omega) (by omega)
  rw [heq]
  exact ⟨rfl, ⟨_, rfl, rfl, rfl⟩, by decide⟩

/-- Witness for C9 at a concrete create call. -/
theorem createPoll_default_duration_witness :
    (createPoll emptyDB (some ("t")) none none (some ("a,b")) 9 7 50).1
      = .created (nextPollId emptyDB) ∧
    (∃ row, (createPoll emptyDB (some ("t")) none none (some ("a,b")) 9 7 50).2.polls
        = emptyDB.polls ++ [row] ∧
      row.endTime = 50 + 1440 * 60 ∧ row.isActive = true) ∧
    durationChoices.map (fun c => c.2) = [30, 60, 720, 1440, 4320, 10080] :=
  createPoll_default_duration emptyDB ("t") ("a,b") none 9 7 50
    (by decide) (by decide) (by decide) (by decide)

theorem mem_pollView_struct (options : List String) (pid : Nat)
    (b : PollButton) (hb : b ∈ pollView options pid) :
    b.optionId < options.length ∧ b.pollId = pid ∧ b.lastUses = [] := by
  rcases List.mem_map.mp hb with ⟨x, hx, rfl⟩
  refine ⟨?_, rfl, rfl⟩
  have hz : x ∈ (List.range options.length).zip options := by
    rw [← List.enum_eq_zip_range]; exact hx
  have hx12 : (x.1, x.2) ∈ (List.range options.length).zip options := by
    simpa using hz
  have := (List.of_mem_zip hx12).1
  simpa using this

/-- C7 is false as stated: the voting transaction has no bounds check, so
an out-of-range choice (99 on a two-option poll) is accepted and recorded
instead of rejected without mutation. -/
theorem castVote_out_of_range_mutates :
    (splitComma ("a,b")).length = 2 ∧
    ¬(99 < 2) ∧
    (castVote ⟨[⟨1, "t", "", 9, 100, true, "a,b", some 7, none, 0⟩], [], [], []⟩
        1 99 42).1 = .accepted 1 ∧
    (castVote ⟨[⟨1, "t", "", 9, 100, true, "a,b", some 7, none, 0⟩], [], [], []⟩
        1 99 42).2.votes = [⟨1, 42, 99⟩] :=
  ⟨by decide, by decide, by decide, by decide⟩

/-- C7 (amended): `castVote` itself performs no bounds check and records
out-of-range choices, but every button `PollView` creates carries
`option_id < len(options)` (and that poll's id), so the poll's UI can only
submit in-range choices. -/
theorem pollView_optionId_in_range (options : List String) (pid : Nat)
    (b : PollButton) (hb : b ∈ pollView options pid) :
    b.optionId < options.length ∧ b.pollId = pid :=
  ⟨(mem_pollView_struct options pid b hb).1,
   (mem_pollView_struct options pid b hb).2.1⟩

/-- Witness for C7 (amended) on a concrete two-option view. -/
theorem pollView_optionId_in_range_witness :
    (⟨"b", 1, 5, []⟩ : PollButton).optionId < (["a", "b"]).length ∧
    (⟨"b", 1, 5, []⟩ : PollButton).pollId = 5 :=
  pollView_optionId_in_range (["a", "b"]) 5 ⟨"b", 1, 5, []⟩ (by decide)

theorem checkRateLimit_shape (lu : List (Nat × Nat)) (u now : Nat) :
    checkRateLimit lu u now = (false, none) ∨
      ∃ r, checkRateLimit lu u now = (true, some r) := by
  rcases hf : lu.find? (fun e => e.1 == u) with _ | e
  · exact .inl (by simp [checkRateLimit, hf])
  · by_cases h : now - e.2 < VOTE_RATE_LIMIT_SECONDS
    · exact .inr ⟨VOTE_RATE_LIMIT_SECONDS - (now - e.2), by simp [checkRateLimit, hf, h]⟩
    · exact .inl (by simp [checkRateLimit, hf, h])

theorem pressButton_cases (b : PollButton) (db : DBState) (u now : Nat) :
    (∃ r, checkRateLimit b.lastUses u now = (true, some r) ∧
      pressButton b db u now = (.rateLimited r, b, db)) ∨
    (checkRateLimit b.lastUses u now = (false, none) ∧
      ((∃ db1, castVote db b.pollId b.optionId u = (.ended, db1) ∧
          pressButton b db u now = (.ended, b, db1)) ∨
       (∃ db1, castVote db b.pollId b.optionId u = (.duplicate, db1) ∧
          pressButton b db u now = (.duplicate, b, db1)) ∨
       (∃ t db1, castVote db b.pollId b.optionId u = (.accepted t, db1) ∧
          pressButton b db u now
            = (.accepted t, { b with lastUses := setLastUse b.lastUses u now }, db1)))) := by
  obtain hsh | ⟨r, hsh⟩ := checkRateLimit_shape b.lastUses u now
  · right
    refine ⟨hsh, ?_⟩
    rcases hcv : castVote db b.pollId b.optionId u with ⟨o, db1⟩
    cases o with
    | ended => exact .inl ⟨db1, rfl, by simp [pressButton, hsh, hcv]⟩
    | duplicate => exact .inr (.inl ⟨db1, rfl, by simp [pressButton, hsh, hcv]⟩)
    | accepted t => exact .inr (.inr ⟨t, db1, rfl, by simp [pressButton, hsh, hcv]⟩)
  · exact .inl ⟨r, hsh, by simp [pressButton, hsh]⟩

/-- C10: the per-button cooldown timestamp is written only after an
accepted (committed) vote — rate-limited, poll-ended and duplicate
outcomes leave `_last_uses` untouched — and the cooldown state lives on
the individual button object: every button of a fresh `PollView` has its
own empty `_last_uses`, so an accepted press on one option's button arms
only that button, and the same user is not rate-limited on another
option's (empty-state) button inside the window. -/
theorem cooldown_armed_only_on_accept (b : PollButton) (db : DBState)
    (u now δ : Nat) (options : List String) (pid i : Nat)
    (hi : i < (pollView options pid).length) :
    (∀ t, (pressButton b db u now).1 = .accepted t →
      (pressButton b db u now).2.1
        = { b with lastUses := setLastUse b.lastUses u now }) ∧
    ((pressButton b db u now).1 = .ended → (pressButton b db u now).2.1 = b) ∧
    ((pressButton b db u now).1 = .duplicate → (pressButton b db u now).2.1 = b) ∧
    (∀ r, (pressButton b db u now).1 = .rateLimited r →
      (pressButton b db u now).2.1 = b ∧ (pressButton b db u now).2.2 = db) ∧
    (((pollView options pid).get ⟨i, hi⟩).lastUses = [] ∧
      checkRateLimit [] u now = (false, none)) ∧
    (∀ t, (pressButton ((pollView options pid).get ⟨i, hi⟩) db u now).1 = .accepted t →
      δ < VOTE_RATE_LIMIT_SECONDS →
      checkRateLimit
        (pressButton ((pollView options pid).get ⟨i, hi⟩) db u now).2.1.lastUses
        u (now + δ)
        = (true, some (VOTE_RATE_LIMIT_SECONDS - δ))) := by
  have hfresh : ((pollView options pid).get ⟨i, hi⟩).lastUses = [] :=
    (mem_pollView_struct options pid _ (List.get_mem (pollView options pid) i hi)).2.2
  refine ⟨?_, ?_, ?_, ?_, ⟨hfresh, rfl⟩, ?_⟩
  · intro t ht
    rcases pressButton_cases b db u now with ⟨r, _, hpb⟩ | ⟨_, hc⟩
    · rw [hpb] at ht; exact absurd ht (by simp)
    · rcases hc with ⟨db1, _, hpb⟩ | ⟨db1, _, hpb⟩ | ⟨t', db1, _, hpb⟩
      · rw [hpb] at ht ⊢; exact absurd ht (by simp)
      · rw [hpb] at ht ⊢; exact absurd ht (by simp)
      · rw [hpb]
  · intro ht
    rcases pressButton_cases b db u now with ⟨r, _, hpb⟩ | ⟨_, hc⟩
    · rw [hpb] at ht; exact absurd ht (by simp)
    · rcases hc with ⟨db1, _, hpb⟩ | ⟨db1, _, hpb⟩ | ⟨t', db1, _, hpb⟩
      · rw [hpb]
      · rw [hpb] at ht; exact absurd ht (by simp)
      · rw [hpb] at ht; exact absurd ht (by simp)
  · intro ht
    rcases pressButton_cases b db u now with ⟨r, _, hpb⟩ | ⟨_, hc⟩
    · rw [hpb] at ht; exact absurd ht (by simp)
    · rcases hc with ⟨db1, _, hpb⟩ | ⟨db1, _, hpb⟩ | ⟨t', db1, _, hpb⟩
      · rw [hpb] at ht; exact absurd ht (by simp)
      · rw [hpb]
      · rw [hpb] at ht; exact absurd ht (by simp)
  · intro r hr
    rcases pressButton_cases b db u now with ⟨r', _, hpb⟩ | ⟨_, hc⟩
    · rw [hpb]; exact ⟨rfl, rfl⟩
    · rcases hc with ⟨db1, _, hpb⟩ | ⟨db1, _, hpb⟩ | ⟨t', db1, _, hpb⟩ <;>
        (rw [hpb] at hr; exact absurd hr (by simp))
  · intro t ht hδ
    rcases pressButton_cases ((pollView options pid).get ⟨i, hi⟩) db u now with
      ⟨r, _, hpb⟩ | ⟨_, hc⟩
    · rw [hpb] at ht; exact absurd ht (by simp)
    · rcases hc with ⟨db1, _, hpb⟩ | ⟨db1, _, hpb⟩ | ⟨t', db1, _, hpb⟩
      · rw [hpb] at ht; exact absurd ht (by simp)
      · rw [hpb] at ht; exact absurd ht (by simp)
      · rw [hpb]
        have harm : setLastUse ((pollView options pid).get ⟨i, hi⟩).lastUses u now
            = [(u, now)] := by rw [hfresh]; rfl
        simp only [harm, checkRateLimit, List.find?]
        simp [Nat.add_sub_cancel_left, hδ]

/-- Witness for C10: concrete fresh-view button facts via the theorem. -/
theorem cooldown_armed_only_on_accept_witness :
    checkRateLimit [] 42 100 = (false, none) ∧
    ((pollView (["a", "b"]) 1).get ⟨0, by decide⟩).lastUses = [] := by
  have h := cooldown_armed_only_on_accept ⟨"a", 0, 1, []⟩ emptyDB 42 100 1
    (["a", "b"]) 1 0 (by decide)
  exact ⟨h.2.2.2.2.1.2, h.2.2.2.2.1.1⟩

theorem manualEnd_notFound_eq (db : DBState) (pollId : Nat)
    (h : getPoll db pollId = none) : manualEnd db pollId = (.notFound, db) := by
  simp [manualEnd, h]

theorem find?_filter_self_none (polls : List PollRow) (pid : Nat) :
    (polls.filter (fun p => !(p.id == pid))).find? (fun p => p.id == pid) = none := by
  rw [List.find?_eq_none]
  intro x hx
  have hh := (List.mem_filter.mp hx).2
  simpa using hh

theorem find?_deactivate_none (polls : List PollRow) (pid now : Nat)
    (h : polls.find? (fun p => p.id == pid) = none) :
    (polls.map (fun p => if expiredQ p now then { p with isActive := false } else p)).find?
      (fun p => p.id == pid) = none := by
  rw [List.find?_eq_none] at h ⊢
  intro x hx
  rcases List.mem_map.mp hx with ⟨q, hq, rfl⟩
  by_cases he : expiredQ q now
  · simpa [he] using h q hq
  · simpa [he] using h q hq

/-- C3 is false as stated: on an expired active poll, running the
automatic expiry path first and the manual end path second produces TWO
result announcements, and after the automatic path alone the poll row is
still present (merely marked inactive), contradicting both "exactly one
result announcement" and "the poll row is absent after either call". -/
theorem finalize_auto_then_manual_not_idempotent :
    (checkEndedStep ⟨[⟨1, "t", "", 9, 100, true, "a,b", some 7, none, 1⟩],
        [⟨1, 42, 0⟩], [voteHash 1 42], []⟩ 200).1.length = 1 ∧
    getPoll (checkEndedStep ⟨[⟨1, "t", "", 9, 100, true, "a,b", some 7, none, 1⟩],
        [⟨1, 42, 0⟩], [voteHash 1 42], []⟩ 200).2 1 ≠ none ∧
    (∃ a, (manualEnd (checkEndedStep ⟨[⟨1, "t", "", 9, 100, true, "a,b", some 7, none, 1⟩],
        [⟨1, 42, 0⟩], [voteHash 1 42], []⟩ 200).2 1).1 = .endedAndDeleted a) :=
  ⟨rfl, by decide, ⟨_, rfl⟩⟩

/-- C3 (amended): when the FIRST finalize is the manual end path the
claim holds — one announcement, the poll row absent afterwards, a second
manual attempt is a not-found no-op, and the expiry sweep neither
announces that poll nor resurrects its row.  (When the automatic path runs
first it only marks the poll inactive, and a following manual end — which
does not filter on `is_active` — announces a second time.) -/
theorem finalize_manual_first_idempotent (db : DBState) (pollId now : Nat)
    (p : PollRow) (hp : getPoll db pollId = some p) :
    (∃ a, (manualEnd db pollId).1 = .endedAndDeleted a) ∧
    getPoll (manualEnd db pollId).2 pollId = none ∧
    manualEnd (manualEnd db pollId).2 pollId = (.notFound, (manualEnd db pollId).2) ∧
    ((checkEndedStep (manualEnd db pollId).2 now).1.filter
        (fun a => a.pollId == pollId)) = [] ∧
    getPoll (checkEndedStep (manualEnd db pollId).2 now).2 pollId = none := by
  have houtcome : (manualEnd db pollId).1
      = .endedAndDeleted (mkAnnouncement db p false) := by
    simp [manualEnd, hp]
  have hpolls : (manualEnd db pollId).2.polls
      = db.polls.filter (fun q => !(q.id == pollId)) := by
    simp [manualEnd, hp]
  have hnone : getPoll (manualEnd db pollId).2 pollId = none := by
    rw [getPoll, hpolls]
    exact find?_filter_self_none db.polls pollId
  refine ⟨⟨_, houtcome⟩, hnone, manualEnd_notFound_eq _ pollId hnone, ?_, ?_⟩
  · rw [List.filter_eq_nil_iff]
    intro a ha
    rcases List.mem_map.mp ha with ⟨q, hq, rfl⟩
    have hqmem : q ∈ (manualEnd db pollId).2.polls :=
      List.mem_of_mem_filter hq
    rw [hpolls] at hqmem
    have hqne := (List.mem_filter.mp hqmem).2
    simpa [mkAnnouncement] using hqne
  · show ((checkEndedStep (manualEnd db pollId).2 now).2.polls).find? _ = none
    have : (checkEndedStep (manualEnd db pollId).2 now).2.polls
        = (manualEnd db pollId).2.polls.map
            (fun q => if expiredQ q now then { q with isActive := false } else q) := rfl
    rw [this]
    exact find?_deactivate_none _ pollId now (by rw [← getPoll]; exact hnone)

/-- Witness for C3 (amended) on a concrete one-poll store. -/
theorem finalize_manual_first_idempotent_witness :
    getPoll (manualEnd ⟨[⟨1, "t", "", 9, 100, true, "a,b", some 7, none, 1⟩],
        [⟨1, 42, 0⟩], [voteHash 1 42], []⟩ 1).2 1 = none ∧
    manualEnd (manualEnd ⟨[⟨1, "t", "", 9, 100, true, "a,b", some 7, none, 1⟩],
        [⟨1, 42, 0⟩], [voteHash 1 42], []⟩ 1).2 1
      = (.notFound, (manualEnd ⟨[⟨1, "t", "", 9, 100, true, "a,b", some 7, none, 1⟩],
          [⟨1, 42, 0⟩], [voteHash 1 42], []⟩ 1).2) := by
  have h := finalize_manual_first_idempotent
    ⟨[⟨1, "t", "", 9, 100, true, "a,b", some 7, none, 1⟩],
      [⟨1, 42, 0⟩], [voteHash 1 42], []⟩ 1 200
    ⟨1, "t", "", 9, 100, true, "a,b", some 7, none, 1⟩ rfl
  exact ⟨h.2.1, h.2.2.1⟩

/-- C4: the manual end path and the retention purge delete the poll row
and its `votes` rows, but their `vote_checks` DELETE statements use LIKE
patterns (`'%{poll_id}:%'` resp. `'poll_{ts}%'`) that can never match a
SHA-256 hex digest, so the deleted poll's commitment rows remain. -/
theorem deleted_poll_commitments_remain :
    (manualEnd ⟨[⟨1, "t", "", 9, 100, false, "a,b", some 7, none, 1⟩],
        [⟨1, 42, 0⟩], [voteHash 1 42], []⟩ 1).2.polls = [] ∧
    (manualEnd ⟨[⟨1, "t", "", 9, 100, false, "a,b", some 7, none, 1⟩],
        [⟨1, 42, 0⟩], [voteHash 1 42], []⟩ 1).2.votes = [] ∧
    (manualEnd ⟨[⟨1, "t", "", 9, 100, false, "a,b", some 7, none, 1⟩],
        [⟨1, 42, 0⟩], [voteHash 1 42], []⟩ 1).2.voteChecks = [voteHash 1 42] ∧
    (cleanupIteration ⟨[⟨1, "t", "", 9, 100, false, "a,b", some 7, none, 1⟩],
        [⟨1, 42, 0⟩], [voteHash 1 42], []⟩ 90000).polls = [] ∧
    (cleanupIteration ⟨[⟨1, "t", "", 9, 100, false, "a,b", some 7, none, 1⟩],
        [⟨1, 42, 0⟩], [voteHash 1 42], []⟩ 90000).votes = [] ∧
    (cleanupIteration ⟨[⟨1, "t", "", 9, 100, false, "a,b", some 7, none, 1⟩],
        [⟨1, 42, 0⟩], [voteHash 1 42], []⟩ 90000).voteChecks = [voteHash 1 42] :=
  ⟨by decide, by decide, by decide, by decide, by decide, by decide⟩

/-- C5 is false as stated: in the concurrent first-use race (both tasks
SELECT on the empty table before either INSERT) the losing writer detects
NO conflict — the table's primary key is the AUTO_INCREMENT `id` and
`key_value` has no unique constraint, so both inserts succeed (distinct
ids, primary key satisfied) and TWO keys survive instead of one. -/
theorem key_race_two_keys_survive :
    keyLookup emptyDB = none ∧
    (raceFirstUse emptyDB 5 7).keys.map (fun k => k.keyValue) = [5, 7] ∧
    (raceFirstUse emptyDB 5 7).keys.length = 2 ∧
    ((raceFirstUse emptyDB 5 7).keys.map (fun k => k.id)).Nodup :=
  ⟨rfl, by decide, by decide, by decide⟩

/-- C5 (amended): `get_or_create_key` creates a key only when none is
stored and every later call returns the stored key with the store
unchanged; but when two concurrent first uses both find no key, both
inserts succeed (auto-increment primary key, no unique constraint on
`key_value`), two keys survive, and later reads return the first row
(`SELECT ... LIMIT 1`). -/
theorem getOrCreateKey_amended (db : DBState) (k k2 : Nat) (row : KeyRow) :
    (db.keys.head? = some row → getOrCreateKey db k = (row.keyValue, db)) ∧
    (db.keys = [] → getOrCreateKey db k
        = (k, { db with keys := [⟨nextKeyId db, k⟩] })) ∧
    (raceFirstUse emptyDB k k2).keys.map (fun r => r.keyValue) = [k, k2] ∧
    keyLookup (raceFirstUse emptyDB k k2) = some k := by
  refine ⟨fun h => ?_, fun h => ?_, rfl, rfl⟩
  · simp [getOrCreateKey, keyLookup, h]
  · simp [getOrCreateKey, keyLookup, keyInsert, h]

/-- Witness for C5 (amended): a stored key is returned unchanged; a first
use on an empty table inserts exactly one row. -/
theorem getOrCreateKey_amended_witness :
    getOrCreateKey ⟨[], [], [], [⟨1, 5⟩]⟩ 9 = (5, ⟨[], [], [], [⟨1, 5⟩]⟩) ∧
    getOrCreateKey emptyDB 5
      = (5, { emptyDB with keys := [⟨nextKeyId emptyDB, 5⟩] }) := by
  have h1 := getOrCreateKey_amended ⟨[], [], [], [⟨1, 5⟩]⟩ 9 7 ⟨1, 5⟩
  have h2 := getOrCreateKey_amended emptyDB 5 7 ⟨1, 5⟩
  exact ⟨h1.1 rfl, h2.2.1 rfl⟩

set_option maxRecDepth 8000

/-- C8 is false as stated: at the reachable tally (4, 3) — two options,
total 7, the winning option holding 4 votes — the binary64 evaluation of
`int(percentage / 5 * total_votes / max_votes)` performed by both code
sites yields a 19-segment bar, not the full 20-segment bar the claim
promises the most-voted option (the double chain lands at
19.999999999999996), and 19 differs from the exact `⌊20 · 4 / 4⌋ = 20`. -/
theorem renderResults_float_shortfall :
    ([4, 3].sum = 7 ∧ [4, 3].foldr max 0 = 4) ∧
    barLengthAuto 4 7 4 = 19 ∧
    barLengthManual 4 7 4 = 19 ∧
    20 * 4 / 4 = 20 ∧
    renderResultsAuto (["a", "b"]) [4, 3]
      = [("a", progressBar 19 ++ " 4票 (57.1%)"),
         ("b", progressBar 15 ++ " 3票 (42.9%)")] :=
  ⟨by decide, by decide, by decide, by decide, by decide⟩

/-- C8 (amended): the result renderer is a deterministic pure function of
(options, tally), computed identically by the automatic and the manual
code site; the percentage is `votes / total * 100` evaluated in binary64
(0 when `total = 0`); each option, in original order, is rendered as the
bar, the vote count with `票`, and the percentage to one decimal place;
the bar length is the binary64 evaluation of
`int(percentage / 5 * total / max)`, which tracks the exact
`⌊20 · votes / max⌋` but can fall one segment short of it, so the option
with the most votes fills all 20 segments at some tallies (2 votes of 3)
and only 19 at others (4 votes of 7); zero votes always give an empty
bar. -/
theorem renderResults_spec_float :
    (∀ options counts,
      renderResultsAuto options counts = renderResultsManual options counts) ∧
    (∀ v, percentage v 0 = ⟨0, 0⟩) ∧
    (∀ total maxV, barLengthAuto 0 total maxV = 0) ∧
    (∀ v t m, resultLineAuto v t m
      = progressBar (barLengthAuto v t m) ++ " " ++ toString v ++
        "票 (" ++ fmtTenths (percentage v t) ++ "%)") ∧
    (barLengthAuto 2 3 2 = 20 ∧ barLengthAuto 4 7 4 = 19 ∧
      barLengthAuto 4 7 4 + 1 = 20 * 4 / 4) := by
  refine ⟨fun o c => rfl, fun v => rfl, ?_, fun v t m => rfl,
    by decide, by decide, by decide⟩
  intro total maxV
  by_cases hM : 0 < maxV
  · by_cases hT : 0 < total
    · simp [barLengthAuto, percentage, hM, hT, f64OfNat, fdiv, fmul, f64Trunc]
    · simp [barLengthAuto, percentage, hM, hT, fdiv, fmul, f64Trunc]
  · simp [barLengthAuto, hM]

theorem totalVotesInvB_iff (db : DBState) :
    totalVotesInvB db = true ↔ ∀ q ∈ db.polls, q.totalVotes = countVotes db q.id := by
  simp [totalVotesInvB]

theorem countVotes_dbAfterVote (db : DBState) (p c u q : Nat) :
    countVotes (dbAfterVote db p c u) q
      = countVotes db q + (if q = p then 1 else 0) := by
  by_cases h : q = p
  · simp [countVotes, dbAfterVote, List.filter_append, h]
  · simp [countVotes, dbAfterVote, List.filter_append, h, Ne.symm h]

theorem castVote_snd_cases (db : DBState) (p c u : Nat) :
    (castVote db p c u).2 = db ∨ (castVote db p c u).2 = dbAfterVote db p c u := by
  rcases hp : getPoll db p with _ | poll
  · left; simp [castVote, hp]
  · by_cases ha : poll.isActive
    · by_cases hc : db.voteChecks.contains (voteHash p u)
      · left; rw [castVote_duplicate_eq db p c u poll hp ha hc]
      · right; rw [castVote_accepted_eq db p c u poll hp ha (by simpa using hc)]
    · left; simp [castVote, hp, ha]

theorem castVote_accepted_implies (db : DBState) (p c u t : Nat) (db2 : DBState)
    (h : castVote db p c u = (.accepted t, db2)) :
    db2 = dbAfterVote db p c u ∧ t = countVotes db p + 1 := by
  rcases hp : getPoll db p with _ | poll
  · simp [castVote, hp] at h
  · by_cases ha : poll.isActive
    · by_cases hc : db.voteChecks.contains (voteHash p u)
      · rw [castVote_duplicate_eq db p c u poll hp ha hc] at h
        simp at h
      · rw [castVote_accepted_eq db p c u poll hp ha (by simpa using hc)] at h
        have h1 := congrArg Prod.fst h
        have h2 := congrArg Prod.snd h
        simp at h1 h2
        exact ⟨h2.symm, h1.symm⟩
    · simp [castVote, hp, ha] at h

theorem foldr_max_le (l : List Nat) (x : Nat) (hx : x ∈ l) : x ≤ l.foldr max 0 := by
  induction l with
  | nil => cases hx
  | cons a tl ih =>
    rcases List.mem_cons.mp hx with rfl | h
    · exact le_max_left _ _
    · exact le_trans (ih h) (le_max_right _ _)

theorem countVotes_nextPollId (db : DBState) (hfk : fkOK db = true) :
    countVotes db (nextPollId db) = 0 := by
  rw [countVotes, List.length_eq_zero, List.filter_eq_nil_iff]
  intro v hv
  have hfk' := (List.all_eq_true.mp hfk) v hv
  rcases List.any_eq_true.mp hfk' with ⟨q, hq, hqe⟩
  have hqe' : q.id = v.pollId := by simpa using hqe
  have hle : q.id ≤ (db.polls.map (fun r => r.id)).foldr max 0 :=
    foldr_max_le _ _ (List.mem_map.mpr ⟨q, hq, rfl⟩)
  simp only [beq_iff_eq]
  rw [nextPollId]
  omega

theorem createPoll_snd_cases (db : DBState) (title options : String)
    (descr? : Option String) (duration? : Option Nat) (cr ch now2 : Nat) :
    (createPoll db (some title) descr? duration? (some options) cr ch now2).2 = db ∨
    (createPoll db (some title) descr? duration? (some options) cr ch now2).2
      = { db with polls := db.polls ++
            [⟨nextPollId db, title, descr?.getD "", cr,
              now2 + (duration?.getD 1440) * 60, true, options,
              some ch, none, 0⟩] } := by
  by_cases htb : (title == "") = true
  · left; simp [createPoll, htb]
  · by_cases hob : (options == "") = true
    · left; simp [createPoll, htb, hob]
    · by_cases h2 : (parseOptions options).length < 2
      · left; simp [createPoll, htb, hob, h2]
      · by_cases h5 : (parseOptions options).length > MAX_OPTIONS
        · left; simp [createPoll, htb, hob, h2, h5]
        · right; simp [createPoll, htb, hob, h2, h5]

theorem countVotes_filter_ne (votes : List VoteRow) (pid q : Nat) (hq : q ≠ pid) :
    ((votes.filter (fun v => !(v.pollId == pid))).filter
        (fun v => v.pollId == q)).length
      = (votes.filter (fun v => v.pollId == q)).length := by
  rw [List.filter_filter]
  congr 1
  apply List.filter_congr
  intro v _
  by_cases h : v.pollId = q <;> simp [h, hq]

/-- C2 is false as stated: starting from the empty store, create a 30-min
poll, cast one vote, let the expiry sweep deactivate it — the invariant
holds after each of those committed operations — then run the retention
purge's FIRST autocommitted statement (the votes delete): the poll row is
still present with the stale `total_votes = 1`, violating the invariant at
that committed instant. -/
theorem totalVotes_stale_mid_purge :
    totalVotesInvB
      (createPoll emptyDB (some ("t")) none (some 30) (some ("a,b")) 9 7 0).2 = true ∧
    totalVotesInvB
      (castVote (createPoll emptyDB (some ("t")) none (some 30) (some ("a,b")) 9 7 0).2
        1 0 42).2 = true ∧
    totalVotesInvB
      (checkEndedStep
        (castVote (createPoll emptyDB (some ("t")) none (some 30) (some ("a,b")) 9 7 0).2
          1 0 42).2 10000).2 = true ∧
    totalVotesInvB
      (cleanupVotesStep
        (checkEndedStep
          (castVote (createPoll emptyDB (some ("t")) none (some 30) (some ("a,b")) 9 7 0).2
            1 0 42).2 10000).2 3600) = false ∧
    (cleanupVotesStep
        (checkEndedStep
          (castVote (createPoll emptyDB (some ("t")) none (some 30) (some ("a,b")) 9 7 0).2
            1 0 42).2 10000).2 3600).polls ≠ [] :=
  ⟨by decide, by decide, by decide, by decide, by decide⟩

/-- C2 (amended): the `total_votes` invariant holds after poll creation,
after every vote transaction — an accepted vote recomputes `total_votes`
from the `votes` table (the stored value equals the recomputed count even
when the cached value was stale), rather than incrementing — after the
expiry sweep's deactivation, after a manual end, and after a COMPLETE
retention-purge iteration; but the purge runs its statements as separate
autocommitted deletes, so between its votes-delete and polls-delete the
invariant is transiently violated for the purged polls. -/
theorem totalVotes_invariant_amended
    (db : DBState) (p c u now t : Nat) (db2 : DBState)
    (title options : String) (descr? : Option String) (duration? : Option Nat)
    (cr ch now2 : Nat)
    (hinv : totalVotesInvB db = true)
    (hnd : (db.polls.map (fun q => q.id)).Nodup)
    (hfk : fkOK db = true) :
    (castVote db p c u = (.accepted t, db2) →
      t = countVotes db2 p ∧
      ∀ r ∈ db2.polls, r.id = p → r.totalVotes = countVotes db2 p) ∧
    totalVotesInvB (castVote db p c u).2 = true ∧
    totalVotesInvB
      (createPoll db (some title) descr? duration? (some options) cr ch now2).2 = true ∧
    totalVotesInvB (checkEndedStep db now).2 = true ∧
    totalVotesInvB (manualEnd db p).2 = true ∧
    totalVotesInvB (cleanupIteration db now) = true := by
  have hinv' := (totalVotesInvB_iff db).mp hinv
  refine ⟨?_, ?_, ?_, ?_, ?_, ?_⟩
  · intro h
    obtain ⟨h1, h2⟩ := castVote_accepted_implies db p c u t db2 h
    subst h1
    subst h2
    refine ⟨by rw [countVotes_dbAfterVote]; simp, ?_⟩
    intro r hr hrid
    rcases List.mem_map.mp hr with ⟨q, hq, rfl⟩
    by_cases hqp : (q.id == p) = true
    · simp only [hqp, if_true]
      rw [countVotes_dbAfterVote]
      simp
    · simp only [hqp] at hrid ⊢
      rw [if_neg (by simp [hqp])] at hrid ⊢
      exact absurd hrid (by simpa using hqp)
  · rcases castVote_snd_cases db p c u with he | he
    · rw [he]; exact hinv
    · rw [he, totalVotesInvB_iff]
      intro r hr
      rcases List.mem_map.mp hr with ⟨q, hq, rfl⟩
      by_cases hqp : (q.id == p) = true
      · have hqid : q.id = p := by simpa using hqp
        rw [if_pos hqp]
        rw [countVotes_dbAfterVote]
        simp [hqid]
      · have hqid : q.id ≠ p := by simpa using hqp
        rw [if_neg (by simp [hqp])]
        rw [countVotes_dbAfterVote]
        simp only [if_neg hqid, Nat.add_zero]
        exact hinv' q hq
  · rcases createPoll_snd_cases db title options descr? duration? cr ch now2 with he | he
    · rw [he]; exact hinv
    · rw [he, totalVotesInvB_iff]
      intro r hr
      rcases List.mem_append.mp hr with hro | hrn
      · exact hinv' r hro
      · rcases List.mem_singleton.mp hrn with rfl
        exact (countVotes_nextPollId db hfk).symm
  · rw [totalVotesInvB_iff]
    intro r hr
    simp only [checkEndedStep] at hr
    rcases List.mem_map.mp hr with ⟨q, hq, rfl⟩
    by_cases he : expiredQ q now
    · rw [if_pos (by simpa using he)]
      exact hinv' q hq
    · rw [if_neg (by simpa using he)]
      exact hinv' q hq
  · rcases hp : getPoll db p with _ | poll
    · rw [manualEnd_notFound_eq db p hp]
      exact hinv
    · have hpolls : (manualEnd db p).2.polls
          = db.polls.filter (fun q => !(q.id == p)) := by simp [manualEnd, hp]
      have hvotes : (manualEnd db p).2.votes
          = db.votes.filter (fun v => !(v.pollId == p)) := by simp [manualEnd, hp]
      rw [totalVotesInvB_iff]
      intro r hr
      rw [hpolls] at hr
      have hrmem := List.mem_of_mem_filter hr
      have hrne : r.id ≠ p := by simpa using (List.mem_filter.mp hr).2
      show r.totalVotes = countVotes (manualEnd db p).2 r.id
      simp only [countVotes, hvotes]
      rw [countVotes_filter_ne db.votes p r.id hrne]
      exact hinv' r hrmem
  · rw [totalVotesInvB_iff]
    intro r hr
    have hr' : r ∈ db.polls.filter
        (fun q => !(!q.isActive && decide (q.endTime < now - CLEANUP_DAYS * 86400))) := hr
    have hrmem := List.mem_of_mem_filter hr'
    have hkeep : (!(!r.isActive && decide (r.endTime < now - CLEANUP_DAYS * 86400))) = true :=
      (List.mem_filter.mp hr').2
    suffices hcv : countVotes (cleanupIteration db now) r.id = countVotes db r.id by
      rw [hcv]; exact hinv' r hrmem
    show (((db.votes.filter
          (fun v => !(oldInactive db v.pollId (now - CLEANUP_DAYS * 86400)))).filter
        (fun v => (db.polls.filter
            (fun q => !(!q.isActive && decide (q.endTime < now - CLEANUP_DAYS * 86400)))).any
          (fun q => q.id == v.pollId))).filter
        (fun v => v.pollId == r.id)).length
      = countVotes db r.id
    rw [List.filter_filter, List.filter_filter]
    have hpred : ∀ v ∈ db.votes,
        (((v.pollId == r.id) &&
            (db.polls.filter
              (fun q => !(!q.isActive && decide (q.endTime < now - CLEANUP_DAYS * 86400)))).any
              (fun q => q.id == v.pollId)) &&
          !(oldInactive db v.pollId (now - CLEANUP_DAYS * 86400)))
          = (v.pollId == r.id) := by
      intro v hv
      by_cases hid : v.pollId = r.id
      · have hold : oldInactive db r.id (now - CLEANUP_DAYS * 86400) = false := by
          rw [oldInactive, List.any_eq_false]
          intro q hq hqc
          simp only [Bool.and_eq_true, beq_iff_eq, decide_eq_true_eq] at hqc
          obtain ⟨⟨hqid, hqact⟩, hqt⟩ := hqc
          have hqr : q = r := List.inj_on_of_nodup_map hnd hq hrmem hqid
          subst hqr
          rw [Bool.not_eq_true'] at hkeep
          rw [hqact] at hkeep
          simp only [Bool.true_and] at hkeep
          exact absurd hqt (by simpa using hkeep)
        have hor : r.isActive = true ∨ now ≤ r.endTime + CLEANUP_DAYS * 86400 := by
          have hx : (!r.isActive && decide (r.endTime < now - CLEANUP_DAYS * 86400))
              = false := by
            rw [Bool.not_eq_true'] at hkeep
            exact hkeep
          rcases Bool.and_eq_false_iff.mp hx with hk | hk
          · left; simpa using hk
          · right
            have hnl : ¬(r.endTime < now - CLEANUP_DAYS * 86400) := by simpa using hk
            omega
        simp [hid, hold]
        exact ⟨r, hrmem, hor, rfl⟩
      · have hb : (v.pollId == r.id) = false := by simp [hid]
        rw [hb]
        simp
    rw [List.filter_congr hpred]
    rfl

/-- Witness for C2 (amended): the invariant holds after a concrete
accepted vote and after a full purge iteration. -/
theorem totalVotes_invariant_amended_witness :
    totalVotesInvB
      (castVote ⟨[⟨1, "t", "", 9, 100, true, "a,b", some 7, none, 0⟩], [], [], []⟩
        1 0 42).2 = true ∧
    totalVotesInvB
      (cleanupIteration ⟨[⟨1, "t", "", 9, 100, true, "a,b", some 7, none, 0⟩], [], [], []⟩
        200) = true := by
  have h := totalVotes_invariant_amended
    ⟨[⟨1, "t", "", 9, 100, true, "a,b", some 7, none, 0⟩], [], [], []⟩
    1 0 42 200 0 emptyDB ("t") ("a,b") none none 9 7 0
    (by decide) (by decide) (by decide)
  exact ⟨h.2.1, h.2.2.2.2.2⟩
